import Mathlib

/-!
Verification of the Mini-OS cooperative scheduler (`src/xen/sched.c`) and the
rump hypercall block-I/O layer (`src/rumphyper_base.c`) of rumpuser-xen.

The development shallowly embeds the C code:

* a `struct thread` (see `src/include/mini-os/sched.h`) becomes the record
  `Thread`, with each flag bit (`RUNNABLE_FLAG`, `THREAD_MUSTJOIN`,
  `THREAD_JOINED`, `THREAD_EXTSTACK`, `THREAD_TIMEDOUT`) a separate `Bool`
  field and `wakeup_time` a natural number of nanoseconds (`s_time_t` values
  produced by `NOW()` and the sleep interfaces are non-negative);
* the run set `thread_list` becomes a `List Thread` in queue order, and the
  body of the `TAILQ_FOREACH_SAFE` selection loop of `schedule` becomes the
  structurally recursive function `scan`;
* the block-device tables of `rumphyper_base.c` become the record `BlkState`
  of functions indexed by slot number, and the backend (`init_blkfront`)
  becomes an oracle parameter;
* the bio outstanding counters become the record `BioState`, and the two
  mutex-protected critical sections become atomic steps of `bioStep`.
-/

namespace RumpuserXen

/-! ## Time units (mini-os `time.h`): `SECONDS`/`MILLISECS` in nanoseconds -/

def SECONDS (s : Nat) : Nat := s * 1000000000

def MILLISECS (ms : Nat) : Nat := ms * 1000000

/-! ## Thread records, `sched.h` flag operations -/

/-- `struct thread` of `src/include/mini-os/sched.h`, flags split into their
bits.  `id` stands for the thread's identity (the `struct thread *`). -/
structure Thread where
  id : Nat
  runnable : Bool
  mustjoin : Bool
  joined : Bool
  extstack : Bool
  timedout : Bool
  wakeup_time : Nat
  deriving DecidableEq, Repr

/-- `is_runnable(_thread)` — `_thread->flags & RUNNABLE_FLAG`. -/
def is_runnable (th : Thread) : Bool := th.runnable

/-- `wake` (`sched.c` lines 279-283): clear `wakeup_time`, `set_runnable`. -/
def wake (th : Thread) : Thread :=
  { th with wakeup_time := 0, runnable := true }

/-- `block` (`sched.c` lines 245-249): clear `wakeup_time`, `clear_runnable`. -/
def block (th : Thread) : Thread :=
  { th with wakeup_time := 0, runnable := false }

/-- The timeout path of the selection loop (`sched.c` lines 108-109):
`thread->flags |= THREAD_TIMEDOUT; wake(thread);`. -/
def schedTimeout (th : Thread) : Thread :=
  wake { th with timedout := true }

/-! ## The selection loop of `schedule` (`sched.c` lines 96-128) -/

/-- The per-thread treatment done by the body of the selection loop
(`sched.c` lines 105-112): a non-runnable thread with a non-zero
`wakeup_time` that is at or before `now` takes the timeout path. -/
def treat (now : Nat) (th : Thread) : Thread :=
  if is_runnable th = false ∧ th.wakeup_time ≠ 0 ∧ th.wakeup_time ≤ now then
    schedTimeout th
  else th

/-- The `min_wakeup_time` update of the loop body (`sched.c` lines 110-111):
for a non-runnable sleeper whose deadline is still in the future,
`min_wakeup_time` is lowered to it when smaller. -/
def minUpd (now : Nat) (th : Thread) (mw : Nat) : Nat :=
  if is_runnable th = false ∧ th.wakeup_time ≠ 0 ∧ ¬ th.wakeup_time ≤ now
      ∧ th.wakeup_time < mw then
    th.wakeup_time
  else mw

/-- One pass of the `TAILQ_FOREACH_SAFE` selection loop of `schedule`
(`sched.c` lines 103-121): walk the run queue in order; treat each thread
(timeout wake or `min_wakeup_time` update); the first thread runnable after
treatment is selected, removed, and re-inserted at the tail, and the walk
stops.  Returns (selected thread, run queue afterwards, `min_wakeup_time`). -/
def scan (now : Nat) : List Thread → Nat → Option Thread × List Thread × Nat
  | [], mw => (none, [], mw)
  | th :: rest, mw =>
    let th2 := treat now th
    let mw2 := minUpd now th mw
    if is_runnable th2 then (some th2, rest ++ [th2], mw2)
    else
      let r := scan now rest mw2
      (r.1, th2 :: r.2.1, r.2.2)

/-- Events `schedule` emits towards the hypervisor when no thread is
runnable (`sched.c` lines 125-127). -/
inductive SchedEv where
  | blockDomain (deadline : Nat)
  | forceEvtchn
  deriving DecidableEq, Repr

/-- The `do { ... } while(1)` loop of `schedule` (`sched.c` lines 96-128),
with fuel.  `nows i` is what `NOW()` returns on the iteration with fuel
`i`, and `evs i` is the effect on the run queue of the events processed by
`force_evtchn_callback` on that iteration.  Returns the selected thread,
the final run queue and the trace of hypervisor events. -/
def scheduleLoop (nows : Nat → Nat) (evs : Nat → List Thread → List Thread) :
    Nat → List Thread → Option Thread × List Thread × List SchedEv
  | 0, r => (none, r, [])
  | fuel + 1, r =>
    let now := nows (fuel + 1)
    match scan now r (now + SECONDS 10) with
    | (some th, r2, _) => (some th, r2, [])
    | (none, r2, mw) =>
      let rec2 := scheduleLoop nows evs fuel (evs (fuel + 1) r2)
      (rec2.1, rec2.2.1, SchedEv.blockDomain mw :: SchedEv.forceEvtchn :: rec2.2.2)

/-! ## Sleep interfaces (`sched.c` lines 251-277) -/

/-- The state change `dosleep` performs before calling `schedule`
(`sched.c` lines 257-259): store the deadline, clear `THREAD_TIMEDOUT`,
`clear_runnable`. -/
def dosleepEntry (wakeuptime : Nat) (th : Thread) : Thread :=
  { th with wakeup_time := wakeuptime, timedout := false, runnable := false }

/-- The return path of `dosleep` (`sched.c` lines 262-264): read the
`THREAD_TIMEDOUT` bit as the return value and clear it. -/
def dosleepReturn (th : Thread) : Bool × Thread :=
  (th.timedout, { th with timedout := false })

/-- `msleep(ms)` sleeps until `NOW() + MILLISECS(ms)` (`sched.c` line 270). -/
def msleepDeadline (now ms : Nat) : Nat := now + MILLISECS ms

/-- `absmsleep(ms)` sleeps until the absolute time `MILLISECS(ms)`
(`sched.c` line 276). -/
def absmsleepDeadline (ms : Nat) : Nat := MILLISECS ms

/-- The two ways a sleeping thread becomes runnable again: the scheduler's
timeout path (`sched.c` lines 107-109), or `wake` called by another thread
(`sched.c` lines 279-283). -/
inductive SleepEnd where
  | timeout
  | peerWake
  deriving DecidableEq, Repr

def applyEnd : SleepEnd → Thread → Thread
  | SleepEnd.timeout, th => schedTimeout th
  | SleepEnd.peerWake, th => wake th

/-! ## Whole-queue operations and the scheduler-op step relation -/

/-- Apply a per-thread state change to the thread with identity `tid`,
leaving every other thread alone (a call such as `wake(t)` mutates only the
pointed-to `struct thread`). -/
def onThread (tid : Nat) (f : Thread → Thread) (r : List Thread) : List Thread :=
  r.map fun th => if th.id = tid then f th else th

/-- `create_thread` (`sched.c` lines 146-164): `flags = 0`,
`wakeup_time = 0`, `set_runnable`, append at the tail of the run queue. -/
def mkThread (tid : Nat) : Thread :=
  { id := tid, runnable := true, mustjoin := false, joined := false,
    extstack := false, timedout := false, wakeup_time := 0 }

/-- The primitive run-queue steps out of which the scheduler operations
(`create_thread`, `wake`, `block`, `dosleep`/`msleep`/`absmsleep`,
`schedule`, `exit_thread`, `join_thread`) are composed.  `scanPass` is one
selection pass of `schedule`; `exitRemove` is the removal from the run
queue plus `clear_runnable` done by `exit_thread` (lines 200-201);
`setJoined` and `clearMustjoin` are the pure flag updates of the exit/join
protocol. -/
inductive SchedOp where
  | createThread (tid : Nat)
  | wakeOp (tid : Nat)
  | blockOp (tid : Nat)
  | dosleepEnter (tid : Nat) (wakeuptime : Nat)
  | dosleepExit (tid : Nat)
  | scanPass (now : Nat)
  | exitRemove (tid : Nat)
  | setJoined (tid : Nat)
  | clearMustjoin (tid : Nat)

def applyOp : SchedOp → List Thread → List Thread
  | SchedOp.createThread tid, r => r ++ [mkThread tid]
  | SchedOp.wakeOp tid, r => onThread tid wake r
  | SchedOp.blockOp tid, r => onThread tid block r
  | SchedOp.dosleepEnter tid t, r => onThread tid (dosleepEntry t) r
  | SchedOp.dosleepExit tid, r =>
      onThread tid (fun th => { th with timedout := false }) r
  | SchedOp.scanPass now, r => (scan now r (now + SECONDS 10)).2.1
  | SchedOp.exitRemove tid, r => r.filter fun th => th.id ≠ tid
  | SchedOp.setJoined tid, r => onThread tid (fun th => { th with joined := true }) r
  | SchedOp.clearMustjoin tid, r =>
      onThread tid (fun th => { th with mustjoin := false }) r

/-! ## Block-device layer (`rumphyper_base.c`)

Errno values follow NetBSD `errno.h`; `O_*` values follow NetBSD `fcntl.h`;
the `RUMPUSER_OPEN_*` flags follow `rumpuser.h`.  A trailing underscore
marks a constant whose C name (`EIO`, `ENXIO`, `RUMPUSER_OPEN_BIO`) could
not be used verbatim. -/

def EIO_ : Int := 5
def ENXIO_ : Int := 6
def EBADF : Int := 9
def EROFS : Int := 30

def O_RDWR : Int := 2

def RUMPUSER_OPEN_WRONLY : Nat := 1
def RUMPUSER_OPEN_RDWR : Nat := 2
def RUMPUSER_OPEN_ACCMODE : Nat := 3
def RUMPUSER_OPEN_BIO_ : Nat := 16

def NBLKDEV : Nat := 10
def BLKFDOFF : Int := 64

/-- The static per-slot tables of `rumphyper_base.c` lines 225-228:
`blkdevs` (the backend handle, `none` for `NULL`, handles named by `Nat`),
`blkinfos[num].mode` (the only field of `blkinfos` the code reads), and the
open refcount `blkopen`.  A C `int` refcount is modelled as `Int`. -/
structure BlkState where
  blkopen : Nat → Int
  blkdevs : Nat → Option Nat
  blkmode : Nat → Int

/-- The initial state: all slots closed, handles `NULL`. -/
def blkInit : BlkState :=
  { blkopen := fun _ => 0, blkdevs := fun _ => none, blkmode := fun _ => 0 }

/-- `devopen` (`rumphyper_base.c` lines 230-254).  `backend num` is what
`init_blkfront` returns for slot `num`: `none` for `NULL`, or the handle
together with the `mode` it stores into `blkinfos[num]`.  An already-open
slot gets its refcount bumped and the call returns 1; a fresh open stores
the handle (also storing `NULL` on failure, as the C assignment does) and
returns 0, or fails with `EIO`. -/
def devopen (backend : Nat → Option (Nat × Int)) (st : BlkState) (num : Nat) :
    Int × BlkState :=
  if st.blkopen num ≠ 0 then
    (1, { st with
            blkopen := fun i => if i = num then st.blkopen num + 1 else st.blkopen i })
  else
    match backend num with
    | some hm =>
        (0, { blkdevs := fun i => if i = num then some hm.1 else st.blkdevs i,
              blkmode := fun i => if i = num then hm.2 else st.blkmode i,
              blkopen := fun i => if i = num then 1 else st.blkopen i })
    | none =>
        (EIO_, { st with
                   blkdevs := fun i => if i = num then none else st.blkdevs i })

/-- `devname2num` (`rumphyper_base.c` lines 256-272): the name must start
with `blk` and have length 4; the last character minus `'0'` must be a
slot number in `[0, NBLKDEV)`; otherwise -1. -/
def devname2num (name : List Char) : Int :=
  if name.take 3 ≠ ['b', 'l', 'k'] ∨ name.length ≠ 4 then -1
  else
    let c := name.getD (name.length - 1) 'A'
    let num : Int := (c.toNat : Int) - 48
    if num < 0 ∨ NBLKDEV ≤ num then -1 else num

/-- `rumpuser_open` (`rumphyper_base.c` lines 274-295).  Returns the status,
the value stored through `fdp` (when stored), and the table state. -/
def rumpuser_open (backend : Nat → Option (Nat × Int)) (st : BlkState)
    (name : List Char) (mode : Nat) : Int × Option Int × BlkState :=
  if mode &&& RUMPUSER_OPEN_BIO_ = 0 ∨ devname2num name = -1 then
    (ENXIO_, none, st)
  else
    let num := (devname2num name).toNat
    let r := devopen backend st num
    if r.1 ≠ 0 then (r.1, none, r.2)
    else
      let acc := mode &&& RUMPUSER_OPEN_ACCMODE
      if (acc = RUMPUSER_OPEN_WRONLY ∨ acc = RUMPUSER_OPEN_RDWR)
          ∧ r.2.blkmode num ≠ O_RDWR then
        (EROFS, none, r.2)
      else
        (0, some (BLKFDOFF + (num : Int)), r.2)

/-- `rumpuser_close` (`rumphyper_base.c` lines 297-314).  The third
component lists the `shutdown_blkfront` calls made, each with the handle
it was passed (the slot's saved handle, possibly `NULL`). -/
def rumpuser_close (st : BlkState) (fd : Int) :
    Int × BlkState × List (Option Nat) :=
  let rfd := fd - BLKFDOFF
  if rfd < 0 ∨ rfd + 1 > (NBLKDEV : Int) then (EBADF, st, [])
  else
    let i := rfd.toNat
    let newc := st.blkopen i - 1
    let st1 := { st with blkopen := fun j => if j = i then newc else st.blkopen j }
    if newc = 0 then
      let toclose := st1.blkdevs i
      (0, { st1 with blkdevs := fun j => if j = i then none else st1.blkdevs j },
       [toclose])
    else (0, st1, [])

/-! ## Bio outstanding counters (`rumphyper_base.c` lines 341-360, 401-448) -/

/-- `bio_outstanding_total` and `blkdev_outstanding[]`. -/
structure BioState where
  bio_outstanding_total : Int
  blkdev_outstanding : Nat → Int

def bioInit : BioState :=
  { bio_outstanding_total := 0, blkdev_outstanding := fun _ => 0 }

/-- The two critical sections guarded by `bio_mtx`: the submission section
of `rumpuser_bio` (lines 441-445) and the completion section of `biocomp`
(lines 356-359), for the slot `num = fd - BLKFDOFF` recorded in the
request's `bio_num`. -/
inductive BioEv where
  | submit (num : Nat)
  | complete (num : Nat)
  deriving DecidableEq, Repr

def bioSlot : BioEv → Nat
  | BioEv.submit n => n
  | BioEv.complete n => n

def bioStep (st : BioState) : BioEv → BioState
  | BioEv.submit n =>
      { bio_outstanding_total := st.bio_outstanding_total + 1,
        blkdev_outstanding := fun i =>
          if i = n then st.blkdev_outstanding n + 1 else st.blkdev_outstanding i }
  | BioEv.complete n =>
      { bio_outstanding_total := st.bio_outstanding_total - 1,
        blkdev_outstanding := fun i =>
          if i = n then st.blkdev_outstanding n - 1 else st.blkdev_outstanding i }

def slotSum (f : Nat → Int) : Int := ∑ i in Finset.range NBLKDEV, f i

/-- The bookkeeping invariant: the total equals the sum over the slots. -/
def bioBalanced (st : BioState) : Prop :=
  st.bio_outstanding_total = slotSum st.blkdev_outstanding

/-- The spec invariant: a runnable thread has `wakeup_time == 0`. -/
def threadInv (th : Thread) : Prop := th.runnable = true → th.wakeup_time = 0

def queueInv (r : List Thread) : Prop := ∀ th ∈ r, threadInv th

instance (th : Thread) : Decidable (threadInv th) := by
  unfold threadInv; infer_instance

instance (r : List Thread) : Decidable (queueInv r) := by
  unfold queueInv; infer_instance

/-! ## Helper lemmas -/

lemma wake_id (th : Thread) : (wake th).id = th.id := rfl

lemma onThread_wake_involutive (tid : Nat) (r : List Thread) :
    onThread tid wake (onThread tid wake r) = onThread tid wake r := by
  unfold onThread
  rw [List.map_map]
  apply List.map_congr_left
  intro a _
  by_cases h : a.id = tid <;> simp [Function.comp, h, wake]

/-! ## Claim theorems -/

/-- C10: `wake(t)` clears `wakeup_time` to 0 and sets the runnable flag; it
is idempotent both on a single thread record and as an operation on the run
queue (`wake(t); wake(t)` leaves the same state as one `wake(t)`); and it
leaves every thread other than the target unchanged.  `wake` is a plain
store to the target record — it contains no call to `schedule`, so it does
not yield. -/
theorem wake_clears_sets_runnable_idempotent_local
    (th : Thread) (r : List Thread) (tid i : Nat) (u : Thread)
    (hu : r.get? i = some u) (hne : u.id ≠ tid) :
    (wake th).wakeup_time = 0
    ∧ (wake th).runnable = true
    ∧ wake (wake th) = wake th
    ∧ onThread tid wake (onThread tid wake r) = onThread tid wake r
    ∧ (onThread tid wake r).get? i = some u := by
  refine ⟨rfl, rfl, rfl, onThread_wake_involutive tid r, ?_⟩
  have hu2 : r[i]? = some u := by simpa [List.get?_eq_getElem?] using hu
  simp [onThread, List.get?_eq_getElem?, List.getElem?_map, hu2, hne]

theorem wake_clears_sets_runnable_idempotent_local_witness :
    ([mkThread 5].get? 0 = some (mkThread 5) ∧ (mkThread 5).id ≠ 7)
    ∧ ((wake (mkThread 5)).wakeup_time = 0
        ∧ (wake (mkThread 5)).runnable = true
        ∧ wake (wake (mkThread 5)) = wake (mkThread 5)
        ∧ onThread 7 wake (onThread 7 wake [mkThread 5]) = onThread 7 wake [mkThread 5]
        ∧ (onThread 7 wake [mkThread 5]).get? 0 = some (mkThread 5)) :=
  ⟨⟨by decide, by decide⟩,
   wake_clears_sets_runnable_idempotent_local (mkThread 5) [mkThread 5] 7 0
     (mkThread 5) (by decide) (by decide)⟩

/-- C3: `dosleep` returns truthy exactly when the sleep ended through the
scheduler's timeout path (`flags |= THREAD_TIMEDOUT; wake(thread)`), and
falsy when it ended through a plain `wake` by another thread; in both
cases the `THREAD_TIMEDOUT` flag is clear once `dosleep` has returned. -/
theorem dosleep_truthy_iff_timeout (e : SleepEnd) (t : Nat) (th : Thread) :
    ((dosleepReturn (applyEnd e (dosleepEntry t th))).1 = true ↔ e = SleepEnd.timeout)
    ∧ (dosleepReturn (applyEnd e (dosleepEntry t th))).2.timedout = false := by
  cases e <;>
    simp [dosleepReturn, applyEnd, dosleepEntry, schedTimeout, wake]

lemma slotSum_shift (f : Nat → Int) (n : Nat) (hn : n < NBLKDEV) (d : Int) :
    slotSum (fun i => if i = n then f n + d else f i) = slotSum f + d := by
  unfold slotSum
  have hp : ∀ i, (if i = n then f n + d else f i) = f i + (if i = n then d else 0) := by
    intro i; by_cases h : i = n <;> simp [h]
  simp only [hp]
  rw [Finset.sum_add_distrib]
  have : (∑ i in Finset.range NBLKDEV, if i = n then d else 0) = d := by
    rw [Finset.sum_ite_eq' (Finset.range NBLKDEV) n (fun _ => d)]
    simp [Finset.mem_range, hn]
  rw [this]

lemma bioStep_balanced (st : BioState) (ev : BioEv)
    (hb : bioBalanced st) (hs : bioSlot ev < NBLKDEV) :
    bioBalanced (bioStep st ev) := by
  unfold bioBalanced at hb
  cases ev with
  | submit n =>
      simp only [bioSlot] at hs
      simp only [bioBalanced, bioStep]
      rw [slotSum_shift _ n hs 1]
      omega
  | complete n =>
      simp only [bioSlot] at hs
      simp only [bioBalanced, bioStep, sub_eq_add_neg]
      rw [slotSum_shift _ n hs (-1)]
      omega

lemma bioFold_balanced (evs : List BioEv) :
    ∀ st : BioState, bioBalanced st → (∀ ev ∈ evs, bioSlot ev < NBLKDEV) →
      bioBalanced (evs.foldl bioStep st) := by
  induction evs with
  | nil => intro st hb _; simpa using hb
  | cons ev rest ih =>
      intro st hb hs
      simp only [List.foldl_cons]
      exact ih _ (bioStep_balanced st ev hb (hs ev (by simp)))
        (fun e he => hs e (by simp [he]))

/-- C7: starting from the initial counters, after any sequence of
`bio_mtx`-protected critical sections — a submission in `rumpuser_bio`
increments `bio_outstanding_total` and `blkdev_outstanding[num]` together,
a completion in `biocomp` decrements both together — the total equals the
sum over all slots of `blkdev_outstanding`.  Since the counters change only
inside those critical sections, the equation holds at every point at which
`bio_mtx` is not held. -/
theorem bio_outstanding_total_eq_slot_sum (evs : List BioEv)
    (hs : ∀ ev ∈ evs, bioSlot ev < NBLKDEV) :
    bioBalanced (evs.foldl bioStep bioInit) :=
  bioFold_balanced evs bioInit (by simp [bioBalanced, bioInit, slotSum]) hs

theorem bio_outstanding_total_eq_slot_sum_witness :
    bioBalanced ([BioEv.submit 0, BioEv.submit 3, BioEv.complete 0].foldl
      bioStep bioInit) :=
  bio_outstanding_total_eq_slot_sum
    [BioEv.submit 0, BioEv.submit 3, BioEv.complete 0] (by decide)

/-- C9: `rumpuser_close(fd)` returns `EBADF` exactly when `fd - BLKFDOFF`
is outside `[0, NBLKDEV)`.  For every in-range `fd` it returns 0
unconditionally (the slot need not be open), decrements the slot's
refcount (so the count can go negative), leaves every other slot alone,
and calls `shutdown_blkfront` on the slot's saved handle — after first
nulling the slot — exactly when the decremented refcount equals zero. -/
theorem rumpuser_close_contract (st : BlkState) (fd : Int) :
    ((rumpuser_close st fd).1 = EBADF ↔
      fd - BLKFDOFF < 0 ∨ (NBLKDEV : Int) ≤ fd - BLKFDOFF)
    ∧ (0 ≤ fd - BLKFDOFF → fd - BLKFDOFF < (NBLKDEV : Int) →
        (rumpuser_close st fd).1 = 0
        ∧ (rumpuser_close st fd).2.1.blkopen (fd - BLKFDOFF).toNat
            = st.blkopen (fd - BLKFDOFF).toNat - 1
        ∧ (∀ j, j ≠ (fd - BLKFDOFF).toNat →
            (rumpuser_close st fd).2.1.blkopen j = st.blkopen j
            ∧ (rumpuser_close st fd).2.1.blkdevs j = st.blkdevs j)
        ∧ (st.blkopen (fd - BLKFDOFF).toNat - 1 = 0 →
            (rumpuser_close st fd).2.2 = [st.blkdevs (fd - BLKFDOFF).toNat]
            ∧ (rumpuser_close st fd).2.1.blkdevs (fd - BLKFDOFF).toNat = none)
        ∧ (st.blkopen (fd - BLKFDOFF).toNat - 1 ≠ 0 →
            (rumpuser_close st fd).2.2 = []
            ∧ (rumpuser_close st fd).2.1.blkdevs (fd - BLKFDOFF).toNat
                = st.blkdevs (fd - BLKFDOFF).toNat)) := by
  by_cases hr : fd - BLKFDOFF < 0 ∨ fd - BLKFDOFF + 1 > (NBLKDEV : Int)
  · refine ⟨?_, ?_⟩
    · simp only [rumpuser_close, if_pos hr]
      constructor
      · intro _; omega
      · intro _; trivial
    · intro h0 h1
      exact absurd hr (by omega)
  · refine ⟨?_, ?_⟩
    · simp only [rumpuser_close, if_neg hr]
      by_cases hz : st.blkopen (fd - BLKFDOFF).toNat - 1 = 0
      · simp only [if_pos hz]
        constructor
        · intro h; exact absurd h (by simp [EBADF])
        · intro h; omega
      · simp only [if_neg hz]
        constructor
        · intro h; exact absurd h (by simp [EBADF])
        · intro h; omega
    · intro h0 h1
      simp only [rumpuser_close, if_neg hr]
      by_cases hz : st.blkopen (fd - BLKFDOFF).toNat - 1 = 0
      · simp only [if_pos hz]
        refine ⟨by trivial, by simp, ?_, ?_, ?_⟩
        · intro j hj; simp [hj]
        · intro _; exact ⟨by trivial, by simp⟩
        · intro hc; exact absurd hz hc
      · simp only [if_neg hz]
        refine ⟨by trivial, by simp, ?_, ?_, ?_⟩
        · intro j hj; simp [hj]
        · intro hc; exact absurd hc hz
        · intro _; exact ⟨by trivial, by trivial⟩

theorem rumpuser_close_contract_witness :
    (0 ≤ (64 : Int) - BLKFDOFF ∧ (64 : Int) - BLKFDOFF < (NBLKDEV : Int))
    ∧ (rumpuser_close blkInit 64).1 = 0
    ∧ (rumpuser_close blkInit 64).2.1.blkopen 0 = -1
    ∧ (rumpuser_close blkInit 64).2.2 = [] := by
  have h := (rumpuser_close_contract blkInit 64).2 (by decide) (by decide)
  refine ⟨⟨by decide, by decide⟩, h.1, ?_, ?_⟩
  · have := h.2.1
    simpa [blkInit, BLKFDOFF] using this
  · have := h.2.2.2.2 (by simp [blkInit, BLKFDOFF])
    simpa using this.1

lemma scan_nil (now mw : Nat) : scan now [] mw = (none, [], mw) := rfl

lemma scan_cons_runnable (now mw : Nat) (a : Thread) (rest : List Thread)
    (h : is_runnable (treat now a) = true) :
    scan now (a :: rest) mw
      = (some (treat now a), rest ++ [treat now a], minUpd now a mw) := by
  simp [scan, h]

lemma scan_cons_stuck (now mw : Nat) (a : Thread) (rest : List Thread)
    (h : is_runnable (treat now a) = false) :
    scan now (a :: rest) mw
      = ((scan now rest (minUpd now a mw)).1,
         treat now a :: (scan now rest (minUpd now a mw)).2.1,
         (scan now rest (minUpd now a mw)).2.2) := by
  simp [scan, h]

lemma scan_some_spec (now : Nat) :
    ∀ (r : List Thread) (mw0 : Nat) (th : Thread) (r2 : List Thread) (mw2 : Nat),
      scan now r mw0 = (some th, r2, mw2) →
      ∃ k a, r.get? k = some a ∧ th = treat now a ∧ is_runnable th = true
        ∧ (∀ j b, j < k → r.get? j = some b → is_runnable (treat now b) = false)
        ∧ r2 = (r.take k).map (treat now) ++ r.drop (k + 1) ++ [th] := by
  intro r
  induction r with
  | nil =>
      intro mw0 th r2 mw2 h
      rw [scan_nil] at h
      simp at h
  | cons a rest ih =>
      intro mw0 th r2 mw2 h
      by_cases hr : is_runnable (treat now a) = true
      · rw [scan_cons_runnable now mw0 a rest hr] at h
        have h1 : some (treat now a) = some th := congrArg (fun p => p.1) h
        have h1x : treat now a = th := by simpa using h1
        have h2 : rest ++ [treat now a] = r2 := congrArg (fun p => p.2.1) h
        refine ⟨0, a, rfl, h1x.symm, ?_, ?_, ?_⟩
        · rw [← h1x]; exact hr
        · intro j b hj _; omega
        · rw [← h2, ← h1x]; simp
      · have hr2 : is_runnable (treat now a) = false := by
          cases hq : is_runnable (treat now a)
          · rfl
          · exact absurd hq hr
        rw [scan_cons_stuck now mw0 a rest hr2] at h
        have h1 : (scan now rest (minUpd now a mw0)).1 = some th :=
          congrArg (fun p => p.1) h
        have h2 : treat now a :: (scan now rest (minUpd now a mw0)).2.1 = r2 :=
          congrArg (fun p => p.2.1) h
        have h3 : (scan now rest (minUpd now a mw0)).2.2 = mw2 :=
          congrArg (fun p => p.2.2) h
        have hrec : scan now rest (minUpd now a mw0)
            = (some th, (scan now rest (minUpd now a mw0)).2.1,
               (scan now rest (minUpd now a mw0)).2.2) := by
          rw [← h1]
        obtain ⟨k, b, hb, hth, hrun, hpre, hlist⟩ :=
          ih (minUpd now a mw0) th _ _ hrec
        refine ⟨k + 1, b, ?_, hth, hrun, ?_, ?_⟩
        · simpa using hb
        · intro j c hj hc
          cases j with
          | zero =>
              simp at hc
              rw [← hc]; exact hr2
          | succ j' =>
              refine hpre j' c (by omega) (by simpa using hc)
        · rw [← h2, hlist]
          simp

lemma treat_timeout_eq (now : Nat) (u : Thread)
    (h1 : is_runnable u = false) (h2 : u.wakeup_time ≠ 0)
    (h3 : u.wakeup_time ≤ now) :
    treat now u = { u with timedout := true, wakeup_time := 0, runnable := true } := by
  simp [treat, h1, h2, h3, schedTimeout, wake]

/-- C4: a selection pass of `schedule` walks the run queue in order; every
scanned non-runnable thread whose non-zero `wakeup_time` is at or before
`now` gets `THREAD_TIMEDOUT` set, `wakeup_time` cleared and the runnable
flag set; the first thread runnable after this treatment is selected and
rotated to the tail, the scan stops there, and the relative order of all
other threads (treated prefix, untouched suffix) is unchanged. -/
theorem schedule_scan_selects_first_runnable
    (now : Nat) (r : List Thread) (mw0 : Nat) (th : Thread)
    (r2 : List Thread) (mw2 : Nat)
    (h : scan now r mw0 = (some th, r2, mw2)) :
    (∀ u : Thread, is_runnable u = false → u.wakeup_time ≠ 0 →
        u.wakeup_time ≤ now →
        treat now u = { u with timedout := true, wakeup_time := 0, runnable := true })
    ∧ ∃ k a, r.get? k = some a ∧ th = treat now a ∧ is_runnable th = true
        ∧ (∀ j b, j < k → r.get? j = some b → is_runnable (treat now b) = false)
        ∧ r2 = (r.take k).map (treat now) ++ r.drop (k + 1) ++ [th] :=
  ⟨fun u h1 h2 h3 => treat_timeout_eq now u h1 h2 h3,
   scan_some_spec now r mw0 th r2 mw2 h⟩

/-- A non-runnable thread sleeping until time 200, used as concrete input
in witnesses. -/
def wSleeper : Thread :=
  { id := 1, runnable := false, mustjoin := false, joined := false,
    extstack := false, timedout := false, wakeup_time := 200 }

/-- A runnable thread, used as concrete input in witnesses. -/
def wRun : Thread :=
  { id := 2, runnable := true, mustjoin := false, joined := false,
    extstack := false, timedout := false, wakeup_time := 0 }

theorem schedule_scan_selects_first_runnable_witness :
    (∀ u : Thread, is_runnable u = false → u.wakeup_time ≠ 0 →
        u.wakeup_time ≤ 100 →
        treat 100 u = { u with timedout := true, wakeup_time := 0, runnable := true })
    ∧ ∃ k a, [wSleeper, wRun].get? k = some a ∧ wRun = treat 100 a
        ∧ is_runnable wRun = true
        ∧ (∀ j b, j < k → [wSleeper, wRun].get? j = some b →
            is_runnable (treat 100 b) = false)
        ∧ [wSleeper, wRun]
            = ([wSleeper, wRun].take k).map (treat 100)
              ++ [wSleeper, wRun].drop (k + 1) ++ [wRun] :=
  schedule_scan_selects_first_runnable 100 [wSleeper, wRun]
    (100 + SECONDS 10) wRun [wSleeper, wRun] 200 (by decide)

/-- The pending wakeup deadlines that lie strictly in the future: exactly
the values over which the selection loop minimizes (`sched.c` lines
110-111). -/
def futureWake (now : Nat) (u : Thread) : Option Nat :=
  if is_runnable u = false ∧ u.wakeup_time ≠ 0 ∧ now < u.wakeup_time then
    some u.wakeup_time
  else none

lemma minUpd_futureWake (now : Nat) (u : Thread) (m : Nat) :
    minUpd now u m = match futureWake now u with
      | some w => Nat.min m w
      | none => m := by
  by_cases h1 : is_runnable u = false ∧ u.wakeup_time ≠ 0 ∧ now < u.wakeup_time
  · have hf : futureWake now u = some u.wakeup_time := if_pos h1
    rw [hf]
    show minUpd now u m = Nat.min m u.wakeup_time
    unfold minUpd
    by_cases h2 : u.wakeup_time < m
    · rw [if_pos ⟨h1.1, h1.2.1, by omega, h2⟩]
      exact (min_eq_right (by omega : u.wakeup_time ≤ m)).symm
    · rw [if_neg (fun hc => h2 hc.2.2.2)]
      exact (min_eq_left (by omega : m ≤ u.wakeup_time)).symm
  · have hf : futureWake now u = none := if_neg h1
    rw [hf]
    show minUpd now u m = m
    unfold minUpd
    rw [if_neg (fun hc => h1 ⟨hc.1, hc.2.1, by omega⟩)]

lemma scan_none_spec (now : Nat) :
    ∀ (r : List Thread) (mw0 : Nat) (r2 : List Thread) (mw : Nat),
      scan now r mw0 = (none, r2, mw) →
      r2 = r
      ∧ mw = List.foldl Nat.min mw0 (r.filterMap (futureWake now))
      ∧ (∀ u ∈ r, is_runnable (treat now u) = false) := by
  intro r
  induction r with
  | nil =>
      intro mw0 r2 mw h
      rw [scan_nil] at h
      have h2 : ([] : List Thread) = r2 := congrArg (fun p => p.2.1) h
      have h3 : mw0 = mw := congrArg (fun p => p.2.2) h
      exact ⟨h2.symm, by simp [h3.symm], by simp⟩
  | cons a rest ih =>
      intro mw0 r2 mw h
      by_cases hr : is_runnable (treat now a) = true
      · rw [scan_cons_runnable now mw0 a rest hr] at h
        have h1 : (some (treat now a) : Option Thread) = none :=
          congrArg (fun p => p.1) h
        simp at h1
      · have hr2 : is_runnable (treat now a) = false := by
          cases hq : is_runnable (treat now a)
          · rfl
          · exact absurd hq hr
        rw [scan_cons_stuck now mw0 a rest hr2] at h
        have h1 : (scan now rest (minUpd now a mw0)).1 = none :=
          congrArg (fun p => p.1) h
        have hrec : scan now rest (minUpd now a mw0)
            = (none, (scan now rest (minUpd now a mw0)).2.1,
               (scan now rest (minUpd now a mw0)).2.2) := by
          rw [← h1]
        obtain ⟨e1, e2, e3⟩ := ih (minUpd now a mw0) _ _ hrec
        have h2 : treat now a :: (scan now rest (minUpd now a mw0)).2.1 = r2 :=
          congrArg (fun p => p.2.1) h
        have h3 : (scan now rest (minUpd now a mw0)).2.2 = mw :=
          congrArg (fun p => p.2.2) h
        have htreat : treat now a = a := by
          unfold treat at hr2 ⊢
          by_cases hc : is_runnable a = false ∧ a.wakeup_time ≠ 0
              ∧ a.wakeup_time ≤ now
          · rw [if_pos hc] at hr2
            simp [schedTimeout, wake, is_runnable] at hr2
          · rw [if_neg hc]
        refine ⟨?_, ?_, ?_⟩
        · rw [← h2, e1, htreat]
        · rw [← h3, e2, minUpd_futureWake]
          cases hf : futureWake now a <;> simp [hf]
        · intro u hu
          rcases List.mem_cons.mp hu with h | h
          · rw [h]; exact hr2
          · exact e3 u h

lemma foldl_min_le_init (l : List Nat) : ∀ m0 : Nat, List.foldl Nat.min m0 l ≤ m0 := by
  induction l with
  | nil => intro m0; simp
  | cons a rest ih =>
      intro m0
      simp only [List.foldl_cons]
      exact le_trans (ih (Nat.min m0 a)) (Nat.min_le_left m0 a)

lemma foldl_min_le_mem (l : List Nat) :
    ∀ (m0 x : Nat), x ∈ l → List.foldl Nat.min m0 l ≤ x := by
  induction l with
  | nil => intro m0 x hx; simp at hx
  | cons a rest ih =>
      intro m0 x hx
      rcases List.mem_cons.mp hx with h | h
      · subst h
        exact le_trans (foldl_min_le_init rest (Nat.min m0 x)) (Nat.min_le_right m0 x)
      · exact ih (Nat.min m0 a) x h

lemma foldl_min_init_or_mem (l : List Nat) :
    ∀ m0 : Nat, List.foldl Nat.min m0 l = m0 ∨ List.foldl Nat.min m0 l ∈ l := by
  induction l with
  | nil => intro m0; simp
  | cons a rest ih =>
      intro m0
      simp only [List.foldl_cons]
      rcases ih (Nat.min m0 a) with h | h
      · rcases Nat.le_total m0 a with hle | hle
        · left; rw [h]; exact Nat.min_eq_left hle
        · right; rw [h]
          exact List.mem_cons.mpr (Or.inl (Nat.min_eq_right hle))
      · right; exact List.mem_cons_of_mem a h

/-- C5: when a selection pass finds no runnable thread, `schedule` calls
`block_domain` with deadline the minimum of the pending wakeup times that
lie strictly in the future, starting from (hence capped at) `now` plus 10
seconds; the deadline is a lower bound of those wakeup times, and is
either one of them or the cap; afterwards it forces a pending-event poll
(`force_evtchn_callback`) and rescans the unchanged run queue from the
start. -/
theorem schedule_idle_blocks_until_min_wakeup
    (now : Nat) (r r2 : List Thread) (mw : Nat)
    (h : scan now r (now + SECONDS 10) = (none, r2, mw))
    (fuel : Nat) (nows : Nat → Nat) (evs : Nat → List Thread → List Thread)
    (hn : nows (fuel + 1) = now) :
    mw = List.foldl Nat.min (now + SECONDS 10) (r.filterMap (futureWake now))
    ∧ mw ≤ now + SECONDS 10
    ∧ (∀ w ∈ r.filterMap (futureWake now), mw ≤ w)
    ∧ (mw = now + SECONDS 10 ∨ mw ∈ r.filterMap (futureWake now))
    ∧ r2 = r
    ∧ scheduleLoop nows evs (fuel + 1) r
        = ((scheduleLoop nows evs fuel (evs (fuel + 1) r)).1,
           (scheduleLoop nows evs fuel (evs (fuel + 1) r)).2.1,
           SchedEv.blockDomain mw :: SchedEv.forceEvtchn ::
             (scheduleLoop nows evs fuel (evs (fuel + 1) r)).2.2) := by
  obtain ⟨e1, e2, _⟩ := scan_none_spec now r (now + SECONDS 10) r2 mw h
  refine ⟨e2, ?_, ?_, ?_, e1, ?_⟩
  · rw [e2]; exact foldl_min_le_init _ _
  · intro w hw; rw [e2]; exact foldl_min_le_mem _ _ w hw
  · rw [e2]; exact foldl_min_init_or_mem _ _
  · have hscan : scan now r (now + SECONDS 10) = (none, r, mw) := by
      rw [h, e1]
    simp only [scheduleLoop, hn, hscan]

theorem schedule_idle_blocks_until_min_wakeup_witness :
    (200 : Nat)
      = List.foldl Nat.min (100 + SECONDS 10) ([wSleeper].filterMap (futureWake 100))
    ∧ scheduleLoop (fun _ => 100) (fun _ l => l) 1 [wSleeper]
        = (none, [wSleeper], [SchedEv.blockDomain 200, SchedEv.forceEvtchn]) := by
  have h := schedule_idle_blocks_until_min_wakeup 100 [wSleeper] [wSleeper] 200
    (by decide) 0 (fun _ => 100) (fun _ l => l) rfl
  refine ⟨h.1, ?_⟩
  rw [h.2.2.2.2.2]
  rfl

lemma threadInv_treat (now : Nat) (u : Thread) (h : threadInv u) :
    threadInv (treat now u) := by
  unfold treat
  by_cases hc : is_runnable u = false ∧ u.wakeup_time ≠ 0 ∧ u.wakeup_time ≤ now
  · rw [if_pos hc]; intro _; rfl
  · rw [if_neg hc]; exact h

lemma queueInv_scan (now : Nat) :
    ∀ r : List Thread, queueInv r → ∀ mw : Nat, queueInv (scan now r mw).2.1 := by
  intro r
  induction r with
  | nil => intro _ mw; rw [scan_nil]; intro u hu; simp at hu
  | cons a rest ih =>
      intro hq mw
      have ha : threadInv a := hq a (by simp)
      have hrest : queueInv rest := fun u hu => hq u (by simp [hu])
      by_cases hr : is_runnable (treat now a) = true
      · rw [scan_cons_runnable now mw a rest hr]
        intro u hu
        rcases List.mem_append.mp hu with h | h
        · exact hrest u h
        · have : u = treat now a := by simpa using h
          rw [this]; exact threadInv_treat now a ha
      · have hr2 : is_runnable (treat now a) = false := by
          cases hq2 : is_runnable (treat now a)
          · rfl
          · exact absurd hq2 hr
        rw [scan_cons_stuck now mw a rest hr2]
        intro u hu
        rcases List.mem_cons.mp hu with h | h
        · rw [h]; exact threadInv_treat now a ha
        · exact ih hrest (minUpd now a mw) u h

lemma queueInv_onThread (tid : Nat) (f : Thread → Thread) (r : List Thread)
    (hq : queueInv r) (hf : ∀ u, threadInv u → threadInv (f u)) :
    queueInv (onThread tid f r) := by
  intro u hu
  unfold onThread at hu
  rcases List.mem_map.mp hu with ⟨v, hv, he⟩
  by_cases h : v.id = tid
  · rw [← he, if_pos h]; exact hf v (hq v hv)
  · rw [← he, if_neg h]; exact hq v hv

/-- C6: every primitive step of the scheduler operations (`create_thread`,
`wake`, `block`, the entry and exit halves of `dosleep` and hence of
`msleep`/`absmsleep`, a selection pass of `schedule`, the run-queue removal
of `exit_thread`, and the flag updates of the exit/join protocol) preserves
the invariant that a runnable thread has `wakeup_time == 0`; the listed
operations are sequential compositions of these steps, so the invariant
holds after each completed operation. -/
theorem sched_ops_preserve_runnable_wakeup_inv (op : SchedOp) (r : List Thread)
    (h : queueInv r) : queueInv (applyOp op r) := by
  cases op with
  | createThread tid =>
      intro u hu
      simp only [applyOp] at hu
      rcases List.mem_append.mp hu with h1 | h1
      · exact h u h1
      · have : u = mkThread tid := by simpa using h1
        rw [this]; intro _; rfl
  | wakeOp tid =>
      exact queueInv_onThread tid wake r h (fun u _ => fun _ => rfl)
  | blockOp tid =>
      exact queueInv_onThread tid block r h (fun u _ => fun _ => rfl)
  | dosleepEnter tid t =>
      refine queueInv_onThread tid (dosleepEntry t) r h (fun u _ => ?_)
      intro hc
      exact absurd hc (by simp [dosleepEntry])
  | dosleepExit tid =>
      exact queueInv_onThread tid _ r h (fun u hu => hu)
  | scanPass now =>
      exact queueInv_scan now r h (now + SECONDS 10)
  | exitRemove tid =>
      intro u hu
      exact h u (List.mem_of_mem_filter hu)
  | setJoined tid =>
      exact queueInv_onThread tid _ r h (fun u hu => hu)
  | clearMustjoin tid =>
      exact queueInv_onThread tid _ r h (fun u hu => hu)

theorem sched_ops_preserve_runnable_wakeup_inv_witness :
    queueInv [wSleeper, wRun]
    ∧ queueInv (applyOp (SchedOp.scanPass 100) [wSleeper, wRun]) :=
  ⟨by decide,
   sched_ops_preserve_runnable_wakeup_inv (SchedOp.scanPass 100)
     [wSleeper, wRun] (by decide)⟩

/-- A runnable thread record standing for a thread about to call
`absmsleep`, used as concrete input. -/
def wCaller : Thread :=
  { id := 3, runnable := true, mustjoin := false, joined := false,
    extstack := false, timedout := false, wakeup_time := 0 }

/-- C2 counterexample: for `ms = 0` the absolute deadline `MILLISECS(0) = 0`
is at or before the current time (here `now = 100`), yet after `dosleep`
has parked the caller the selection pass neither takes the timeout path for
it nor selects it — `wakeup_time == 0` means "not sleeping", so the thread
stays blocked and `absmsleep(0)` does not return immediately with a truthy
result; the claim fails at `ms = 0`. -/
theorem absmsleep_zero_stays_blocked :
    absmsleepDeadline 0 ≤ 100
    ∧ (scan 100 [dosleepEntry (absmsleepDeadline 0) wCaller] (100 + SECONDS 10)).1
        = none
    ∧ is_runnable (treat 100 (dosleepEntry (absmsleepDeadline 0) wCaller)) = false
    ∧ (treat 100 (dosleepEntry (absmsleepDeadline 0) wCaller)).timedout = false :=
  ⟨by decide, by decide, by decide, by decide⟩

/-- C2 amended: for every `ms ≥ 1` whose absolute deadline `MILLISECS(ms)`
is at or before the current monotonic time, `absmsleep(ms)` returns
immediately (the first selection pass takes the timeout path for the caller
and selects it, with no `block_domain` in the trace) with a truthy result,
and clears `THREAD_TIMEDOUT` on exit.  (For `ms = 0` the deadline 0 makes
`dosleep` store `wakeup_time = 0`, which the scheduler reads as "not
sleeping": the caller blocks until another thread wakes it.) -/
theorem absmsleep_past_positive_deadline_times_out
    (ms now fuel : Nat) (th : Thread)
    (nows : Nat → Nat) (evs : Nat → List Thread → List Thread)
    (h1 : 1 ≤ ms) (h2 : MILLISECS ms ≤ now) (hn : nows (fuel + 1) = now) :
    scheduleLoop nows evs (fuel + 1) [dosleepEntry (absmsleepDeadline ms) th]
      = (some (schedTimeout (dosleepEntry (absmsleepDeadline ms) th)),
         [schedTimeout (dosleepEntry (absmsleepDeadline ms) th)], [])
    ∧ (dosleepReturn (schedTimeout (dosleepEntry (absmsleepDeadline ms) th))).1 = true
    ∧ (dosleepReturn (schedTimeout (dosleepEntry (absmsleepDeadline ms) th))).2.timedout
        = false := by
  have hwne : (dosleepEntry (absmsleepDeadline ms) th).wakeup_time ≠ 0 := by
    simp only [dosleepEntry, absmsleepDeadline, MILLISECS]
    omega
  have hwle : (dosleepEntry (absmsleepDeadline ms) th).wakeup_time ≤ now := by
    simpa [dosleepEntry, absmsleepDeadline] using h2
  have ht : treat now (dosleepEntry (absmsleepDeadline ms) th)
      = schedTimeout (dosleepEntry (absmsleepDeadline ms) th) :=
    if_pos ⟨rfl, hwne, hwle⟩
  have hrun : is_runnable (treat now (dosleepEntry (absmsleepDeadline ms) th))
      = true := by
    rw [ht]; rfl
  have hscan : scan now [dosleepEntry (absmsleepDeadline ms) th] (now + SECONDS 10)
      = (some (schedTimeout (dosleepEntry (absmsleepDeadline ms) th)),
         [schedTimeout (dosleepEntry (absmsleepDeadline ms) th)],
         minUpd now (dosleepEntry (absmsleepDeadline ms) th) (now + SECONDS 10)) := by
    rw [scan_cons_runnable _ _ _ _ hrun, ht]
    simp
  refine ⟨?_, rfl, rfl⟩
  simp only [scheduleLoop, hn, hscan]

theorem absmsleep_past_positive_deadline_times_out_witness :
    (1 ≤ 1 ∧ MILLISECS 1 ≤ 2000000)
    ∧ scheduleLoop (fun _ => 2000000) (fun _ l => l) 1
        [dosleepEntry (absmsleepDeadline 1) wCaller]
      = (some (schedTimeout (dosleepEntry (absmsleepDeadline 1) wCaller)),
         [schedTimeout (dosleepEntry (absmsleepDeadline 1) wCaller)], [])
    ∧ (dosleepReturn (schedTimeout (dosleepEntry (absmsleepDeadline 1) wCaller))).1
        = true := by
  have h := absmsleep_past_positive_deadline_times_out 1 2000000 0 wCaller
    (fun _ => 2000000) (fun _ l => l) (by decide) (by decide) rfl
  exact ⟨⟨by decide, by decide⟩, h.1, h.2.1⟩

lemma devname2num_eq (name : List Char) :
    devname2num name =
      if name.take 3 ≠ ['b', 'l', 'k'] ∨ name.length ≠ 4 then -1
      else if ((name.getD (name.length - 1) 'A').toNat : Int) - 48 < 0
          ∨ (NBLKDEV : Int) ≤ ((name.getD (name.length - 1) 'A').toNat : Int) - 48
        then -1
        else ((name.getD (name.length - 1) 'A').toNat : Int) - 48 := rfl

lemma devname2num_neg_or_range (name : List Char) :
    devname2num name = -1
    ∨ (0 ≤ devname2num name ∧ devname2num name < (NBLKDEV : Int)) := by
  rw [devname2num_eq]
  by_cases h1 : name.take 3 ≠ ['b', 'l', 'k'] ∨ name.length ≠ 4
  · rw [if_pos h1]; exact Or.inl rfl
  · rw [if_neg h1]
    by_cases h2 : ((name.getD (name.length - 1) 'A').toNat : Int) - 48 < 0
        ∨ (NBLKDEV : Int) ≤ ((name.getD (name.length - 1) 'A').toNat : Int) - 48
    · rw [if_pos h2]; exact Or.inl rfl
    · rw [if_neg h2]
      right
      constructor <;> omega

lemma devname2num_shape (name : List Char) (hpos : 0 ≤ devname2num name) :
    ∃ c : Char, name = ['b', 'l', 'k', c]
      ∧ (c.toNat : Int) - 48 = devname2num name := by
  by_cases h1 : name.take 3 ≠ ['b', 'l', 'k'] ∨ name.length ≠ 4
  · rw [devname2num_eq, if_pos h1] at hpos
    exact absurd hpos (by norm_num)
  · have htake : name.take 3 = ['b', 'l', 'k'] := by
      by_contra hc; exact h1 (Or.inl hc)
    have hlen : name.length = 4 := by
      by_contra hc; exact h1 (Or.inr hc)
    rcases name with _ | ⟨c0, name⟩
    · simp at hlen
    rcases name with _ | ⟨c1, name⟩
    · simp at hlen
    rcases name with _ | ⟨c2, name⟩
    · simp at hlen
    rcases name with _ | ⟨c3, name⟩
    · simp at hlen
    have hlen0 : name.length = 0 := by
      simp only [List.length_cons] at hlen
      omega
    have hnil : name = [] := List.eq_nil_of_length_eq_zero hlen0
    subst hnil
    obtain ⟨e0, e1, e2⟩ : c0 = 'b' ∧ c1 = 'l' ∧ c2 = 'k' := by
      simpa using htake
    subst e0; subst e1; subst e2
    refine ⟨c3, rfl, ?_⟩
    have he : devname2num ['b', 'l', 'k', c3]
        = if (c3.toNat : Int) - 48 < 0 ∨ (NBLKDEV : Int) ≤ (c3.toNat : Int) - 48
          then -1 else (c3.toNat : Int) - 48 := rfl
    rw [he] at hpos ⊢
    by_cases h2 : (c3.toNat : Int) - 48 < 0 ∨ (NBLKDEV : Int) ≤ (c3.toNat : Int) - 48
    · rw [if_pos h2] at hpos
      exact absurd hpos (by norm_num)
    · rw [if_neg h2]

lemma rumpuser_open_eq (backend : Nat → Option (Nat × Int)) (st : BlkState)
    (name : List Char) (mode : Nat) :
    rumpuser_open backend st name mode =
      if mode &&& RUMPUSER_OPEN_BIO_ = 0 ∨ devname2num name = -1 then
        (ENXIO_, none, st)
      else if (devopen backend st (devname2num name).toNat).1 ≠ 0 then
        ((devopen backend st (devname2num name).toNat).1, none,
         (devopen backend st (devname2num name).toNat).2)
      else if (mode &&& RUMPUSER_OPEN_ACCMODE = RUMPUSER_OPEN_WRONLY
            ∨ mode &&& RUMPUSER_OPEN_ACCMODE = RUMPUSER_OPEN_RDWR)
          ∧ (devopen backend st (devname2num name).toNat).2.blkmode
              (devname2num name).toNat ≠ O_RDWR then
        (EROFS, none, (devopen backend st (devname2num name).toNat).2)
      else
        (0, some (BLKFDOFF + (((devname2num name).toNat : Nat) : Int)),
         (devopen backend st (devname2num name).toNat).2) := rfl

/-- C8: `rumpuser_open` returns `ENXIO` whenever the mode lacks the
block-I/O flag or the name is not `blk` followed by one decimal digit
(`devname2num` returns -1); and whenever it succeeds, the name was exactly
`['b','l','k',c]` with `c` the digit of some `n < NBLKDEV` and the stored
descriptor is `BLKFDOFF + n` — so no name outside `blk0`..`blk9` can open
successfully. -/
theorem rumpuser_open_name_gate (backend : Nat → Option (Nat × Int))
    (st : BlkState) (name : List Char) (mode : Nat) :
    ((mode &&& RUMPUSER_OPEN_BIO_ = 0 ∨ devname2num name = -1) →
        rumpuser_open backend st name mode = (ENXIO_, none, st))
    ∧ ((rumpuser_open backend st name mode).1 = 0 →
        ∃ n : Nat, n < NBLKDEV ∧ ∃ c : Char, name = ['b', 'l', 'k', c]
          ∧ c.toNat = 48 + n
          ∧ (rumpuser_open backend st name mode).2.1
              = some (BLKFDOFF + (n : Int))) := by
  constructor
  · intro h
    rw [rumpuser_open_eq, if_pos h]
  · intro h0
    by_cases hb : mode &&& RUMPUSER_OPEN_BIO_ = 0 ∨ devname2num name = -1
    · rw [rumpuser_open_eq, if_pos hb] at h0
      exact absurd h0 (by simp [ENXIO_])
    · have hd : devname2num name ≠ -1 := fun hc => hb (Or.inr hc)
      have hpos : 0 ≤ devname2num name := by
        rcases devname2num_neg_or_range name with h | h
        · exact absurd h hd
        · exact h.1
      have hlt : devname2num name < (NBLKDEV : Int) := by
        rcases devname2num_neg_or_range name with h | h
        · exact absurd h hd
        · exact h.2
      obtain ⟨c, hname, hc⟩ := devname2num_shape name hpos
      have h10 : (NBLKDEV : Int) = 10 := rfl
      have h10n : NBLKDEV = 10 := rfl
      refine ⟨(devname2num name).toNat, by omega, c, hname, by omega, ?_⟩
      rw [rumpuser_open_eq, if_neg hb] at h0 ⊢
      by_cases h1 : (devopen backend st (devname2num name).toNat).1 ≠ 0
      · rw [if_pos h1] at h0
        exact absurd h0 h1
      · rw [if_neg h1] at h0 ⊢
        by_cases h2 : (mode &&& RUMPUSER_OPEN_ACCMODE = RUMPUSER_OPEN_WRONLY
              ∨ mode &&& RUMPUSER_OPEN_ACCMODE = RUMPUSER_OPEN_RDWR)
            ∧ (devopen backend st (devname2num name).toNat).2.blkmode
                (devname2num name).toNat ≠ O_RDWR
        · rw [if_pos h2] at h0
          exact absurd h0 (by simp [EROFS])
        · rw [if_neg h2]

/-- A backend for which `init_blkfront` succeeds with handle 7 and a
read-write device, used as concrete input. -/
def wBackend : Nat → Option (Nat × Int) := fun _ => some (7, O_RDWR)

theorem rumpuser_open_name_gate_witness :
    (rumpuser_open wBackend blkInit ['b', 'l', 'k', '3'] 16).1 = 0
    ∧ (rumpuser_open wBackend blkInit ['b', 'l', 'k', '3'] 16).2.1 = some 67 := by
  have h := (rumpuser_open_name_gate wBackend blkInit ['b', 'l', 'k', '3'] 16).2
    (by decide)
  obtain ⟨n, hn, c, hname, hcn, hfd⟩ := h
  have hc3 : c = '3' := by
    have := congrArg (fun l => l.getD 3 'A') hname
    simpa using this.symm
  have hn3 : n = 3 := by
    subst hc3
    have : ('3').toNat = 51 := by decide
    omega
  subst hn3
  refine ⟨by decide, ?_⟩
  rw [hfd]
  norm_num [BLKFDOFF]

/-- A backend whose device opens read-only (`blkinfos[num].mode` is not
`O_RDWR`), as concrete input for the EROFS path. -/
def roBackend : Nat → Option (Nat × Int) := fun _ => some (7, 0)

/-- C1 (code bug, the source marks it `XXX: unopen`): a failed
`rumpuser_open` can leave the slot open and the refcount changed.  First
conjunct group: opening `blk0` for writing on a backend that opened
read-only returns `EROFS`, yet `blkopen[0]` went from 0 to 1 and the slot
holds the backend handle — the slot is left open.  Second group: a second
open of an already-open `blk0` returns 1 (a nonzero status, hence a failed
open) after bumping `blkopen[0]` from 1 to 2.  Both contradict the claim
that a failed open leaves the refcount unchanged and the slot closed. -/
theorem rumpuser_open_erofs_leaves_slot_open :
    (rumpuser_open roBackend blkInit ['b', 'l', 'k', '0'] 17).1 = EROFS
    ∧ blkInit.blkopen 0 = 0
    ∧ blkInit.blkdevs 0 = none
    ∧ (rumpuser_open roBackend blkInit ['b', 'l', 'k', '0'] 17).2.2.blkopen 0 = 1
    ∧ (rumpuser_open roBackend blkInit ['b', 'l', 'k', '0'] 17).2.2.blkdevs 0
        = some 7
    ∧ (rumpuser_open wBackend blkInit ['b', 'l', 'k', '0'] 16).1 = 0
    ∧ (rumpuser_open wBackend blkInit ['b', 'l', 'k', '0'] 16).2.2.blkopen 0 = 1
    ∧ (rumpuser_open wBackend
        (rumpuser_open wBackend blkInit ['b', 'l', 'k', '0'] 16).2.2
        ['b', 'l', 'k', '0'] 16).1 = 1
    ∧ (rumpuser_open wBackend
        (rumpuser_open wBackend blkInit ['b', 'l', 'k', '0'] 16).2.2
        ['b', 'l', 'k', '0'] 16).2.2.blkopen 0 = 2 :=
  ⟨by decide, rfl, rfl, by decide, by decide, by decide, by decide, by decide,
   by decide⟩

end RumpuserXen
